import Mathlib

/-!
# Verification of the AOloopControl real-time control core

Shallow embedding, over `ℚ`, of the parts of
`src/AdaptiveOpticsControl-1.6.19/src/AOloopControl/AOloopControl.c`
relevant to the frozen claims: the modal integrator / open-loop estimator
(`AOloopControl_ComputeOpenLoopModes`), the frame-intake normalization
(`Read_cam_frame`), the run-loop actuation dispatch (`AOloopControl_run`,
`set_DM_modes`), the direct-path and two-step integrators (`AOloopControl_run`,
`AOcompute`), and the gain auto-tuner (`AOloopControl_AutoTuneGains`).

Machine `float` values are modelled as exact rationals; NaN-sensitive paths
are modelled separately with `Option ℚ` (`none` = NaN), with C comparison
semantics (any comparison against NaN is false).
-/

namespace AOloopControl

/-! ## Modal integrator / open-loop estimator state
(`AOloopControl_ComputeOpenLoopModes`, lines 11769-12363)

The DM-history circular buffer `aolN_modeval_dm_C` has `modevalDM_bsize = 20`
slots (line 11775).  `hist s m` is the value of mode `m` in slot `s`
(`data.image[IDmodevalDM_C].array.F[s*NBmodes+m]`).  `idx` is
`modevalDMindex` (the slot written by the current iteration), `idxl` is
`modevalDMindexl` (the slot written by the previous iteration). -/

/-- `modevalDM_bsize` : circular buffer size, line 11775. -/
def modevalDM_bsize : ℕ := 20

structure OLState where
  hist : ℕ → ℕ → ℚ
  idx : ℕ
  idxl : ℕ

/-- Startup state: buffer zeroed (lines 12048-12054), indices 0
(lines 12069-12070). -/
def initOLState : OLState where
  hist := fun _ _ => 0
  idx := 0
  idxl := 0

/-- Per-iteration inputs of one pass of the `while(1)` loop of
`AOloopControl_ComputeOpenLoopModes`, as read at the start of the iteration:
the WFS-measured mode values, the global gain/mult (`AOconf[loop].gain`,
`AOconf[loop].mult`), the per-block arrays `aolN_gainb` / `aolN_multfb` /
`aolN_limitb`, the per-mode arrays `aolN_DMmode_GAIN` / `_LIMIT` / `_MULTF`,
the block index map `aolN_mode_blknb`, the predictive-filter settings, the
auto-tune-limits settings, and the latency constants. -/
structure IterParams where
  NBmodes : ℕ
  NBblock : ℕ
  measured : ℕ → ℚ         -- data.image[IDmodeval].array.F
  gain : ℚ                  -- AOconf[loop].gain
  mult : ℚ                  -- AOconf[loop].mult
  maxlimit : ℚ              -- AOconf[loop].maxlimit (global limit; present in
                             -- LoopConfig, not read by ComputeOpenLoopModes)
  gainb : ℕ → ℚ            -- aoconfID_gainb
  multfb : ℕ → ℚ           -- aoconfID_multfb
  limitb : ℕ → ℚ           -- aoconfID_limitb
  GAIN_modes : ℕ → ℚ       -- aoconfID_GAIN_modes
  MULTF_modes : ℕ → ℚ      -- aoconfID_MULTF_modes
  LIMIT_modes : ℕ → ℚ      -- aoconfID_LIMIT_modes
  blknb : ℕ → ℕ            -- data.image[IDblknb].array.UI16
  blockNBmodes : ℕ → ℕ     -- modes per block, loaded from aolN_DMmodesNN
  ARPFon : Bool             -- AOconf[loop].ARPFon == 1 and PF stream present
  ARPFgain : ℚ
  modevalPF : ℕ → ℚ        -- data.image[IDmodevalPF].array.F
  AUTOTUNE_LIMITS_ON : Bool
  AUTOTUNE_LIMITS_mcoeff : ℚ
  AUTOTUNE_LIMITS_delta : ℚ
  AUTOTUNE_LIMITS_perc : ℚ
  FILTERMODE : Bool
  framelatency0 : ℕ         -- integer part of hardwlatency_frame + wfsmextrlatency_frame
  alpha : ℚ                 -- fractional part of the latency

/-- Effective per-mode gain, line 12113:
`modegain[m] = AOconf[loop].gain * gainb[modeblock[m]] * GAIN_modes[m]`. -/
def modegain (P : IterParams) (m : ℕ) : ℚ :=
  P.gain * P.gainb (P.blknb m) * P.GAIN_modes m

/-- Effective per-mode multiplier, line 12114:
`modemult[m] = AOconf[loop].mult * multfb[modeblock[m]] * MULTF_modes[m]`. -/
def modemult (P : IterParams) (m : ℕ) : ℚ :=
  P.mult * P.multfb (P.blknb m) * P.MULTF_modes m

/-- Effective per-mode limit, line 12115:
`modelimit[m] = limitb[modeblock[m]] * LIMIT_modes[m]` (no global factor). -/
def modelimit (P : IterParams) (m : ℕ) : ℚ :=
  P.limitb (P.blknb m) * P.LIMIT_modes m

/-- Current DM modes state, line 12128:
`modevalDMnow[m] = modemult[m] * (modevalDM_C[modevalDMindexl][m]
                                   - modegain[m] * modeval[m])`. -/
def dmNow (P : IterParams) (s : OLState) (m : ℕ) : ℚ :=
  modemult P m * (s.hist s.idxl m - modegain P m * P.measured m)

/-- Predictive-filter blend, line 12150 (only when `ARPFon`):
`modevalDMnow[m] = -ARPFgain*modevalPF[m] + (1-ARPFgain)*modevalDMnow[m]`. -/
def dmNowBlend (P : IterParams) (s : OLState) (m : ℕ) : ℚ :=
  if P.ARPFon then
    -P.ARPFgain * P.modevalPF m + (1 - P.ARPFgain) * dmNow P s m
  else dmNow P s m

/-! ### Auto-tune-limits pass (lines 12166-12211) -/

/-- Per-mode limit update, lines 12178-12181: grow `LIMIT_modes[m]` by
`(1 + delta)` when `|mcoeff * modevalDMnowfilt[m]| > modelimit[m]`, else
shrink it by `(1 - delta*0.01*perc)`.  At this point `modevalDMnowfilt`
still equals the blended `modevalDMnow` (copied at line 12163; the clip pass
runs later). -/
def limitModesNew (P : IterParams) (s : OLState) (m : ℕ) : ℚ :=
  if modelimit P m < |P.AUTOTUNE_LIMITS_mcoeff * dmNowBlend P s m| then
    P.LIMIT_modes m * (1 + P.AUTOTUNE_LIMITS_delta)
  else
    P.LIMIT_modes m * (1 - P.AUTOTUNE_LIMITS_delta * (1/100) * P.AUTOTUNE_LIMITS_perc)

/-- Per-block sum of updated per-mode limits, line 12184:
`limitblockarray[block] += LIMIT_modes[m]`. -/
def limitblockarray (P : IterParams) (s : OLState) (b : ℕ) : ℚ :=
  ∑ m ∈ Finset.range P.NBmodes, if P.blknb m = b then limitModesNew P s m else 0

/-- Block average of per-mode limits, line 12194:
`atlimbcoeff[block] = limitblockarray[block] / blockNBmodes[block]`. -/
def atlimbcoeff (P : IterParams) (s : OLState) (b : ℕ) : ℚ :=
  limitblockarray P s b / (P.blockNBmodes b : ℚ)

/-- Block damping coefficient, lines 12195-12199:
`coeff = 1 + (atlimbcoeff[block]-1)*delta*0.1`, clamped to
`[1-delta, 1+delta]`. -/
def blockLimitCoeff (P : IterParams) (s : OLState) (b : ℕ) : ℚ :=
  let c := 1 + (atlimbcoeff P s b - 1) * P.AUTOTUNE_LIMITS_delta * (1/10)
  let c := if c < 1 - P.AUTOTUNE_LIMITS_delta then 1 - P.AUTOTUNE_LIMITS_delta else c
  if 1 + P.AUTOTUNE_LIMITS_delta < c then 1 + P.AUTOTUNE_LIMITS_delta else c

/-- Block limit update, line 12200: `limitb[block] *= coeff`. -/
def limitbNew (P : IterParams) (s : OLState) (b : ℕ) : ℚ :=
  P.limitb b * blockLimitCoeff P s b

/-! ### Clip/limit pass (lines 12217-12234) -/

/-- First clip test, lines 12223-12227: if the value exceeds `modelimit[m]`,
count one clip event and clamp to `modelimit[m]`. -/
def clipStep1 (L v : ℚ) : ℚ × ℕ :=
  if L < v then ((L, 1) : ℚ × ℕ) else (v, 0)

/-- Second clip test, lines 12228-12232: if the (possibly already clamped)
value is below `-modelimit[m]`, count one clip event and clamp to
`-modelimit[m]`. -/
def clipStep2 (L : ℚ) (p : ℚ × ℕ) : ℚ × ℕ :=
  if p.1 < -L then (-L, p.2 + 1) else p

/-- One mode of the clip pass, lines 12223-12232, applied to the blended
value `v` with snapshot limit `L = modelimit[m]`: two sequential tests, each
clamping and incrementing `blockavelimFrac[block]` by 1. Returns the clamped
value and the number of increments. -/
def clipMode (L v : ℚ) : ℚ × ℕ :=
  clipStep2 L (clipStep1 L v)

/-- Filtered (committed) mode value: the clip pass runs only when
`FILTERMODE == 1` (line 12217); otherwise `modevalDMnowfilt` keeps the
blended value from line 12163. -/
def dmFilt (P : IterParams) (s : OLState) (m : ℕ) : ℚ :=
  if P.FILTERMODE then (clipMode (modelimit P m) (dmNowBlend P s m)).1
  else dmNowBlend P s m

/-- Clip count contributed by mode `m` to `blockavelimFrac[blknb m]`. -/
def clipCount (P : IterParams) (s : OLState) (m : ℕ) : ℕ :=
  if P.FILTERMODE then (clipMode (modelimit P m) (dmNowBlend P s m)).2 else 0

/-- Total increment of `blockavelimFrac[b]` in this iteration
(lines 12225 and 12230 accumulate 1.0 per clip event). -/
def limFracIncr (P : IterParams) (s : OLState) (b : ℕ) : ℕ :=
  ∑ m ∈ Finset.range P.NBmodes, if P.blknb m = b then clipCount P s m else 0

/-! ### Commit and open-loop estimate (lines 12253-12306) -/

/-- History after the commit, lines 12254-12255: the filtered vector is
written into slot `modevalDMindex`. -/
def histCommit (P : IterParams) (s : OLState) : ℕ → ℕ → ℚ :=
  fun j m => if j = s.idx then dmFilt P s m else s.hist j m

/-- Ring read index, lines 12271-12276:
`i = modevalDMindex - lag; if (i < 0) i += modevalDM_bsize` —
a single wrap correction, in (signed) `long` arithmetic. -/
def ringIndex (cursor lag : ℕ) : ℤ :=
  let i : ℤ := (cursor : ℤ) - (lag : ℤ)
  if i < 0 then i + (modevalDM_bsize : ℤ) else i

/-- DM state at the time of the WFS measurement, line 12280:
`modevalDM[m] = (1-alpha)*modevalDM_C[idx0][m] + alpha*modevalDM_C[idx1][m]`
with `idx0 = cursor - framelatency0`, `idx1 = cursor - (framelatency0+1)`,
each wrapped once.  Read from the buffer as committed this iteration. -/
def dmAtMeasurement (P : IterParams) (s : OLState) (m : ℕ) : ℚ :=
  (1 - P.alpha) * histCommit P s (ringIndex s.idx P.framelatency0).toNat m
    + P.alpha * histCommit P s (ringIndex s.idx (P.framelatency0 + 1)).toNat m

/-- Open-loop estimate, line 12293:
`modeval_ol[m] = modeval[m] - modevalDM[m]`. -/
def openLoop (P : IterParams) (s : OLState) (m : ℕ) : ℚ :=
  P.measured m - dmAtMeasurement P s m

/-- Cursor advance, lines 12303-12306: `modevalDMindexl = modevalDMindex;
modevalDMindex++; if (modevalDMindex == modevalDM_bsize) modevalDMindex = 0`. -/
def advanceState (P : IterParams) (s : OLState) : OLState where
  hist := histCommit P s
  idx := if s.idx + 1 = modevalDM_bsize then 0 else s.idx + 1
  idxl := s.idx

/-! ## Frame intake (`Read_cam_frame`)

Dark subtraction (line 3762, `_DATATYPE_FLOAT` case):
`imWFS0[ii] = arrayftmp[ii] - dark[ii]`.
Flux total (lines 3865-3875, no active-pixel mask): `IMTOTAL = Σ imWFS0[ii]`.
Normalization (lines 3919, 3953):
`totalinv = 1/(WFStotalflux + WFSnormfloor*sizeWFS)`;
`imWFS1[ii] = imWFS0[ii]*totalinv`. -/

/-- Dark-subtracted image `imWFS0`, line 3762. -/
def darkSubtract (raw dark : List ℚ) : List ℚ :=
  List.zipWith (fun a b => a - b) raw dark

/-- Image total `IMTOTAL` (unmasked case), lines 3870-3871. -/
def imtotal (im : List ℚ) : ℚ := im.sum

/-- `totalinv = 1.0/(WFStotalflux + WFSnormfloor*sizeWFS)`, line 3919. -/
def totalinv (flux normfloor : ℚ) (sizeWFS : ℕ) : ℚ :=
  1 / (flux + normfloor * (sizeWFS : ℚ))

/-- Normalized image `imWFS1`, line 3953, after dark subtraction and flux
total as computed in `Read_cam_frame` with `normalize == 1`. -/
def normalizeFrame (raw dark : List ℚ) (normfloor : ℚ) : List ℚ :=
  let im0 := darkSubtract raw dark
  im0.map (fun v => v * totalinv (imtotal im0) normfloor im0.length)

/-! ## NaN-sensitive integration paths

`Option ℚ` models a float that may be NaN (`none`).  Arithmetic propagates
NaN; a C comparison involving NaN is false. -/

/-- Float subtraction, NaN-propagating. -/
def fsub : Option ℚ → Option ℚ → Option ℚ
  | some a, some b => some (a - b)
  | _, _ => none

/-- Float multiplication, NaN-propagating. -/
def fmul : Option ℚ → Option ℚ → Option ℚ
  | some a, some b => some (a * b)
  | _, _ => none

/-- C `x > y`: false when either side is NaN. -/
def fgt : Option ℚ → Option ℚ → Bool
  | some a, some b => decide (b < a)
  | _, _ => false

/-- C `x < y`: false when either side is NaN. -/
def flt : Option ℚ → Option ℚ → Bool
  | some a, some b => decide (a < b)
  | _, _ => false

/-- Direct-path (1-step, `CMMODE != 0`) per-actuator DM update in
`AOloopControl_run`, lines 10604-10632: the NaN check
`if (isnan(meas_act[ii])) meas_act[ii] = 0.0;` (lines 10606-10610), then
`dmC[ii] -= gain*meas_act[ii]; dmC[ii] *= mult;` and the clamp to
`±maxlimit` (lines 10623-10632). -/
def directPathAct (gain mult maxlimit : ℚ) (dmC meas : Option ℚ) : Option ℚ :=
  let meas2 : Option ℚ := match meas with
    | none => some 0
    | some x => some x
  let v1 := fsub dmC (fmul (some gain) meas2)
  let v2 := fmul v1 (some mult)
  let v3 := if fgt v2 (some maxlimit) then some maxlimit else v2
  if flt v3 (some (-maxlimit)) then some (-maxlimit) else v3

/-- Two-step (`CMMODE == 0`) per-mode integrator in `AOcompute`,
lines 11237-11245:
`cmd_modes[k] -= gain * GAIN_modes[k] * meas_modes[k];` then clamp to
`±(maxlimit * LIMIT_modes[k])`, then `cmd_modes[k] *= mult * MULTF_modes[k]`.
No NaN check exists on this path. -/
def twoStepIntegrateMode (gain maxlimit mult GAINk LIMITk MULTFk : ℚ)
    (cmd meas : Option ℚ) : Option ℚ :=
  let v1 := fsub cmd (fmul (some (gain * GAINk)) meas)
  let lim := maxlimit * LIMITk
  let v2 := if flt v1 (some (-lim)) then some (-lim) else v1
  let v3 := if fgt v2 (some lim) then some lim else v2
  fmul v3 (some (mult * MULTFk))

/-- Per-mode DM-state update of `AOloopControl_ComputeOpenLoopModes`,
line 12128, in NaN-aware form:
`modevalDMnow[m] = modemult[m]*(lastState[m] - modegain[m]*modeval[m])`.
No NaN check exists on this path either. -/
def olIntegrateMode (mul gn : ℚ) (lastState meas : Option ℚ) : Option ℚ :=
  fmul (some mul) (fsub lastState (fmul (some gn) meas))

/-! ## Two-step actuation dispatch (`AOloopControl_run` lines 10579-10597,
`set_DM_modes` lines 10714-10775)

In two-step mode (`CMMODE == 0`), `set_DM_modes(loop)` is called only when
`DMprimaryWrite_ON == 1` and `fabs(gain) > 1.0e-6`.  `set_DM_modes`
(CPU branch, `GPU1 == 0`) performs the mode-basis multiply
`arrayf[i] = Σ_k cmd_modes[k] * DMmodes[k][i]` (lines 10731-10733) and
immediately publishes the result to the DM stream `dmC`
(lines 10735-10744); multiply and push live in the same call.
The embedding records which of the two effects happened as an event list. -/

inductive ActuationEvent
  | modeMultiply
  | dmPush
deriving DecidableEq, Repr

/-- The mode-basis multiply of `set_DM_modes`, lines 10731-10733. -/
def modeBasisMultiply (NBDMmodes : ℕ) (cmd : ℕ → ℚ) (DMmodes : ℕ → ℕ → ℚ)
    (i : ℕ) : ℚ :=
  ∑ k ∈ Finset.range NBDMmodes, cmd k * DMmodes k i

/-- `set_DM_modes` (CPU branch): computes the actuator command and writes it
to `dmC`, emitting both events. -/
def set_DM_modes_model (NBDMmodes : ℕ) (cmd : ℕ → ℚ) (DMmodes : ℕ → ℕ → ℚ) :
    (ℕ → ℚ) × List ActuationEvent :=
  (fun i => modeBasisMultiply NBDMmodes cmd DMmodes i,
   [ActuationEvent.modeMultiply, ActuationEvent.dmPush])

/-- Two-step actuation dispatch, lines 10579-10597: `set_DM_modes` runs only
if `DMprimaryWrite_ON == 1` and `fabs(gain) > 1.0e-6`; otherwise nothing at
all happens on this path and `dmC` is untouched. -/
def twoStepActuation (primaryWriteOn : Bool) (gain : ℚ) (NBDMmodes : ℕ)
    (cmd : ℕ → ℚ) (DMmodes : ℕ → ℕ → ℚ) (dmCold : ℕ → ℚ) :
    (ℕ → ℚ) × List ActuationEvent :=
  if primaryWriteOn ∧ 1/1000000 < |gain| then
    set_DM_modes_model NBDMmodes cmd DMmodes
  else (dmCold, [])

/-! ## Gain auto-tuner (`AOloopControl_AutoTuneGains`, lines 12374-12800) -/

/-- `mingain = 0.01`, line 12409. -/
def mingain : ℚ := 1/100

/-- `gainfactstep = 1.05`, line 12410. -/
def gainfactstep : ℚ := 21/20

/-- Sweep candidate gains, lines 12602-12613: `gainval_array[kk]` holds the
successive values of `gain`, starting at `mingain` and multiplied by
`gainfactstep` each step. -/
def gainval (kk : ℕ) : ℚ := mingain * gainfactstep ^ kk

/-- The geometric sweep eventually reaches 1, so the while loop
`while (gain < 1.0)` of lines 12593-12597 terminates (Bernoulli bound). -/
def gainval_reaches_one : ∃ n : ℕ, 1 ≤ gainval n :=
  ⟨1981, by
    have h : (1 : ℚ) + 1981 * (1/20) ≤ (1 + 1/20) ^ 1981 := by
      have := one_add_mul_le_pow (a := (1/20 : ℚ)) (by norm_num) 1981
      simpa using this
    have h2 : (100 : ℚ) ≤ (21/20) ^ 1981 := by
      calc (100 : ℚ) ≤ 1 + 1981 * (1/20) := by norm_num
        _ ≤ (1 + 1/20) ^ 1981 := h
        _ = (21/20) ^ 1981 := by norm_num
    show (1:ℚ) ≤ 1/100 * (21/20) ^ 1981
    linarith⟩

/-- `NBgain`, lines 12591-12597: the number of doublings of the while loop
`gain = mingain; while (gain < 1.0) { gain *= gainfactstep; NBgain++; }`,
i.e. the least `n` with `1 ≤ mingain * gainfactstep^n`. -/
def NBgain : ℕ := Nat.find gainval_reaches_one

/-- `gainval1_array[kk] = (latency + 1.0/gain)*(latency + 1.0/(gain+gain0))`,
line 12607. -/
def gainval1 (latency gain0 : ℚ) (kk : ℕ) : ℚ :=
  (latency + 1 / gainval kk) * (latency + 1 / (gainval kk + gain0))

/-- `gainval2_array[kk] = gain/(1.0-gain)`, line 12608. -/
def gainval2 (kk : ℕ) : ℚ := gainval kk / (1 - gainval kk)

/-- Error functional per candidate, line 12727:
`errarray[kk] = array_asq[m]*gainval1_array[kk] + array_sig[m]*gainval2_array[kk]`,
where `array_asq[m]` is the turbulence-lag weight and `array_sig[m]` the
process-noise weight of mode `m`. -/
def errval (asq sig latency gain0 : ℚ) (kk : ℕ) : ℚ :=
  asq * gainval1 latency gain0 kk + sig * gainval2 kk

/-- The argmin scan, lines 12729-12737:
`errmin = errarray[0]; kkmin = 0;
 for (kk = 0; kk < NBgain; kk++) if (errarray[kk] < errmin) { ... }`.
`kkminScan f n` is `(errmin, kkmin)` after the iteration `kk = n`. -/
def kkminScan (f : ℕ → ℚ) : ℕ → ℚ × ℕ
  | 0 => (f 0, 0)
  | n + 1 =>
    let p := kkminScan f n
    if f (n + 1) < p.1 then (f (n + 1), n + 1) else p

/-- Recommended gain for a mode, line 12739:
`IDout[m] = gainval_array[kkmin]` with the scan run over
`kk = 0 .. NBgain-1`. -/
def recommendedGain (asq sig latency gain0 : ℚ) : ℚ :=
  gainval (kkminScan (errval asq sig latency gain0) (NBgain - 1)).2

/-! ## Concrete fixtures for evaluation -/

/-- A concrete loop configuration used to evaluate the definitions:
2 modes in a single block; global gain `0.2`, block gain `0.5`,
per-mode gain `2.0`; global mult `0.5`; block limit `2`, per-mode limit
`0.5`; latency `2.25` frames (`framelatency0 = 2`, `alpha = 1/4`). -/
def Pex : IterParams where
  NBmodes := 2
  NBblock := 1
  measured := fun m => if m = 0 then 5 else 1
  gain := 1/5
  mult := 1/2
  maxlimit := 1/2
  gainb := fun _ => 1/2
  multfb := fun _ => 1
  limitb := fun _ => 2
  GAIN_modes := fun _ => 2
  MULTF_modes := fun _ => 1
  LIMIT_modes := fun _ => 1/2
  blknb := fun _ => 0
  blockNBmodes := fun _ => 2
  ARPFon := false
  ARPFgain := 0
  modevalPF := fun _ => 0
  AUTOTUNE_LIMITS_ON := true
  AUTOTUNE_LIMITS_mcoeff := 1
  AUTOTUNE_LIMITS_delta := 1/10
  AUTOTUNE_LIMITS_perc := 50
  FILTERMODE := true
  framelatency0 := 2
  alpha := 1/4

/-- A concrete mid-run circular-buffer state: slot `j` of mode `m` holds
`j - 2m`, cursor at slot 5. -/
def sEx : OLState where
  hist := fun j m => (j : ℚ) - 2 * (m : ℚ)
  idx := 5
  idxl := 4

/-- Concrete modal command vector for the actuation fixtures. -/
def cmdEx : ℕ → ℚ := fun k => (k : ℚ) + 1

/-- Concrete mode-to-actuator basis for the actuation fixtures. -/
def DMmodesEx : ℕ → ℕ → ℚ := fun k i => (k : ℚ) + (i : ℚ) + 1

/-- Concrete prior DM command stream content for the actuation fixtures. -/
def dmCEx : ℕ → ℚ := fun _ => 7

/-! ## Helper lemmas -/

/-- The clip pass keeps the value within `[-L, L]` whenever `0 ≤ L`. -/
theorem clipMode_abs_le (L v : ℚ) (hL : 0 ≤ L) : |(clipMode L v).1| ≤ L := by
  have habs : |(-L)| ≤ L := by rw [abs_neg, abs_of_nonneg hL]
  rcases lt_or_le L v with h1 | h1
  · simp only [clipMode, clipStep1, clipStep2, if_pos h1]
    split_ifs with h2
    · exact habs
    · rw [abs_of_nonneg hL]
  · simp only [clipMode, clipStep1, clipStep2, if_neg (not_lt.mpr h1)]
    split_ifs with h2
    · exact habs
    · rw [abs_le]
      exact ⟨not_lt.mp h2, h1⟩

/-- Any mode the clip pass modifies increments the clip counter. -/
theorem clipMode_count_of_ne (L v : ℚ) (h : (clipMode L v).1 ≠ v) :
    1 ≤ (clipMode L v).2 := by
  rcases lt_or_le L v with h1 | h1
  · simp only [clipMode, clipStep1, clipStep2, if_pos h1]
    split_ifs <;> simp
  · simp only [clipMode, clipStep1, clipStep2, if_neg (not_lt.mpr h1)] at h ⊢
    split_ifs at h ⊢ with h2
    · simp
    · exact absurd rfl h

/-- The argmin scan never points past the last scanned index. -/
theorem kkminScan_le (f : ℕ → ℚ) (n : ℕ) : (kkminScan f n).2 ≤ n := by
  induction n with
  | zero => simp [kkminScan]
  | succ n ih =>
    simp only [kkminScan]
    split
    · exact le_refl _
    · exact Nat.le_succ_of_le ih

/-- The running minimum of the scan is the value at the recorded index. -/
theorem kkminScan_eq (f : ℕ → ℚ) (n : ℕ) :
    (kkminScan f n).1 = f (kkminScan f n).2 := by
  induction n with
  | zero => simp [kkminScan]
  | succ n ih =>
    simp only [kkminScan]
    split
    · rfl
    · exact ih

/-- The running minimum of the scan is below every scanned value. -/
theorem kkminScan_min (f : ℕ → ℚ) (n : ℕ) :
    ∀ k ≤ n, (kkminScan f n).1 ≤ f k := by
  induction n with
  | zero =>
    intro k hk
    interval_cases k
    simp [kkminScan]
  | succ n ih =>
    intro k hk
    simp only [kkminScan]
    rcases eq_or_lt_of_le hk with h2 | h2
    · subst h2
      split_ifs with h
      · exact le_refl _
      · exact le_of_not_lt h
    · have hkn : k ≤ n := Nat.lt_succ_iff.mp h2
      split_ifs with h
      · exact le_of_lt (lt_of_lt_of_le h (ih k hkn))
      · exact ih k hkn

/-- Below `NBgain`, sweep candidates are below 1 (the while-loop guard
`gain < 1.0` held when they were stored). -/
theorem gainval_lt_one {kk : ℕ} (h : kk < NBgain) : gainval kk < 1 := by
  have h2 : ¬ (1 ≤ gainval kk) := by
    unfold NBgain at h
    exact Nat.find_min gainval_reaches_one h
  exact lt_of_not_le h2

/-- The sweep stops once the candidate reaches 1. -/
theorem one_le_gainval_NBgain : 1 ≤ gainval NBgain := by
  unfold NBgain
  exact Nat.find_spec gainval_reaches_one

/-- The sweep is nonempty: its first candidate `mingain = 0.01` is below 1. -/
theorem NBgain_pos : 0 < NBgain := by
  unfold NBgain
  rw [Nat.find_pos]
  norm_num [gainval, mingain]

/-- The single wrap correction agrees with true modular reduction when the
lag does not exceed the buffer size and the cursor is in range. -/
theorem ringIndex_eq_emod (c l : ℕ) (hc : c < modevalDM_bsize)
    (hl : l ≤ modevalDM_bsize) :
    ringIndex c l = ((c : ℤ) - (l : ℤ)) % (modevalDM_bsize : ℤ) := by
  simp only [ringIndex, modevalDM_bsize] at *
  split_ifs <;> omega

/-! ## Claims -/

/-- C1: in every iteration of the modal integrator, the current DM modal
state is `dmNow[m] = multiplier[m] * (lastState[m] - gain[m] * measured[m])`,
where `lastState` is the DM-history slot committed by the immediately
preceding iteration (all-zero at startup) and `multiplier[m]`, `gain[m]` are
the effective per-mode values in effect at the start of the iteration. -/
theorem claim_C1_integrator_update (P0 P1 : IterParams) (s : OLState) (m : ℕ) :
    dmNow P0 initOLState m
      = modemult P0 m * (0 - modegain P0 m * P0.measured m)
    ∧ dmNow P1 (advanceState P0 s) m
      = modemult P1 m * (dmFilt P0 s m - modegain P1 m * P1.measured m) := by
  constructor
  · rfl
  · simp [dmNow, advanceState, histCommit]

/-- C1 witness: the consecutive-iteration relation evaluated on the
concrete configuration and buffer state. -/
theorem claim_C1_witness :
    dmNow Pex (advanceState Pex sEx) 0
      = modemult Pex 0 * (dmFilt Pex sEx 0 - modegain Pex 0 * Pex.measured 0) :=
  (claim_C1_integrator_update Pex Pex sEx 0).2

/-- C2: with mode filtering active and a nonnegative effective limit, the
committed (filtered) value satisfies `|committed[m]| ≤ limit[m]` for the
limit snapshot taken at the start of the iteration; the committed value is
what enters the history ring; and every clipped mode is counted into the
clip-fraction accumulator of its block. -/
theorem claim_C2_clip_invariant (P : IterParams) (s : OLState) (m : ℕ)
    (hf : P.FILTERMODE = true) (hm : m < P.NBmodes)
    (hL : 0 ≤ modelimit P m) :
    |dmFilt P s m| ≤ modelimit P m
    ∧ histCommit P s s.idx m = dmFilt P s m
    ∧ (dmFilt P s m ≠ dmNowBlend P s m → 1 ≤ clipCount P s m)
    ∧ clipCount P s m ≤ limFracIncr P s (P.blknb m) := by
  refine ⟨?_, ?_, ?_, ?_⟩
  · rw [dmFilt, if_pos hf]
    exact clipMode_abs_le _ _ hL
  · simp [histCommit]
  · intro hne
    rw [dmFilt, if_pos hf] at hne
    rw [clipCount, if_pos hf]
    exact clipMode_count_of_ne _ _ hne
  · have h := Finset.single_le_sum
      (f := fun k => if P.blknb k = P.blknb m then clipCount P s k else 0)
      (fun i _ => Nat.zero_le _) (Finset.mem_range.mpr hm)
    simpa [limFracIncr] using h

/-- C2 witness: concrete instance in which mode 0 (value 1.5, limit 1) is
clipped and counted. -/
theorem claim_C2_witness :
    (0 : ℚ) ≤ modelimit Pex 0
    ∧ |dmFilt Pex sEx 0| ≤ modelimit Pex 0
    ∧ clipCount Pex sEx 0 ≤ limFracIncr Pex sEx (Pex.blknb 0) :=
  ⟨by norm_num [modelimit, Pex],
   (claim_C2_clip_invariant Pex sEx 0 rfl (by decide)
      (by norm_num [modelimit, Pex])).1,
   (claim_C2_clip_invariant Pex sEx 0 rfl (by decide)
      (by norm_num [modelimit, Pex])).2.2.2⟩

/-- C3: under the in-range latency precondition, the open-loop estimator
interpolates the DM history at the two modularly-wrapped lagged slots,
`dmAtMeasurement[m] = (1-f)*hist[(cursor-L0) mod 20][m]
                     + f*hist[(cursor-L0-1) mod 20][m]`,
and outputs `openLoop[m] = measured[m] - dmAtMeasurement[m]`. -/
theorem claim_C3_openloop_estimator (P : IterParams) (s : OLState) (m : ℕ)
    (hc : s.idx < modevalDM_bsize)
    (hl : P.framelatency0 + 1 ≤ modevalDM_bsize) :
    dmAtMeasurement P s m =
      (1 - P.alpha) * histCommit P s
        ((((s.idx : ℤ) - (P.framelatency0 : ℤ)) % (modevalDM_bsize : ℤ)).toNat) m
      + P.alpha * histCommit P s
        ((((s.idx : ℤ) - (P.framelatency0 : ℤ) - 1) % (modevalDM_bsize : ℤ)).toNat) m
    ∧ openLoop P s m = P.measured m - dmAtMeasurement P s m := by
  constructor
  · have h0 := ringIndex_eq_emod s.idx P.framelatency0 hc (by omega)
    have h1 := ringIndex_eq_emod s.idx (P.framelatency0 + 1) hc hl
    rw [dmAtMeasurement, h0, h1]
    have : ((s.idx : ℤ) - ((P.framelatency0 : ℕ) + 1 : ℕ)) = (s.idx : ℤ) - (P.framelatency0 : ℤ) - 1 := by
      push_cast
      ring
    rw [this]
  · rfl

/-- C3 witness: concrete instance at cursor 5, integer latency 2. -/
theorem claim_C3_witness :
    sEx.idx < modevalDM_bsize ∧
    openLoop Pex sEx 0 = Pex.measured 0 - dmAtMeasurement Pex sEx 0 :=
  ⟨by decide, (claim_C3_openloop_estimator Pex sEx 0 (by decide) (by decide)).2⟩

/-- C4 counterexample: the effective limit of the modal integrator is
`limitb[block] * LIMIT_modes[m]` with no global factor, so with global
max-limit `0.5`, block limit `2` and per-mode limit `0.5` the claimed
`global * block * per-mode = 0.5` differs from the computed limit `1`. -/
theorem claim_C4_counterexample :
    modelimit Pex 0 = 1
    ∧ Pex.maxlimit * Pex.limitb (Pex.blknb 0) * Pex.LIMIT_modes 0 = 1/2
    ∧ modelimit Pex 0 ≠ Pex.maxlimit * Pex.limitb (Pex.blknb 0) * Pex.LIMIT_modes 0 := by
  refine ⟨by norm_num [modelimit, Pex], by norm_num [Pex], by norm_num [modelimit, Pex]⟩

/-- C4 (amended): effective gain and multiplier combine multiplicatively as
global x block x per-mode; the effective limit combines multiplicatively as
block x per-mode (no global factor); in particular with global gain `0.2`,
block gain `0.5` and per-mode gain `2.0` the effective gain is `0.2`. -/
theorem claim_C4_gain_composition (P : IterParams) (m : ℕ)
    (hg : P.gain = 1/5) (hb : P.gainb (P.blknb m) = 1/2)
    (hp : P.GAIN_modes m = 2) :
    modegain P m = P.gain * P.gainb (P.blknb m) * P.GAIN_modes m
    ∧ modemult P m = P.mult * P.multfb (P.blknb m) * P.MULTF_modes m
    ∧ modelimit P m = P.limitb (P.blknb m) * P.LIMIT_modes m
    ∧ modegain P m = 1/5 := by
  refine ⟨rfl, rfl, rfl, ?_⟩
  rw [modegain, hg, hb, hp]
  norm_num

/-- C4 witness: the composition scenario evaluated on the concrete
configuration. -/
theorem claim_C4_witness :
    Pex.gain = 1/5 ∧ modegain Pex 0 = 1/5 :=
  ⟨rfl, (claim_C4_gain_composition Pex 0 rfl rfl rfl).2.2.2⟩

/-- C5 counterexample: on raw frame `[100,200,300,400]`, dark
`[10,10,10,10]` and flux floor 0, frame intake produces
`[90,190,290,390]/960`, not the claimed `[90,190,290,490]/1060`
(the last dark-subtracted pixel is `400 - 10 = 390` and the total 960). -/
theorem claim_C5_counterexample :
    normalizeFrame [100, 200, 300, 400] [10, 10, 10, 10] 0
      ≠ [90/1060, 190/1060, 290/1060, 490/1060] := by
  norm_num [normalizeFrame, darkSubtract, imtotal, totalinv]

/-- C5 (amended): on raw frame `[100,200,300,400]`, dark `[10,10,10,10]`
and flux floor 0, frame intake (dark subtraction then scaling by
`1/(total + normFloor*pixelCount)`) produces `[90,190,290,390]/960`, the
divisor being the sum of the dark-subtracted values. -/
theorem claim_C5_normalization :
    normalizeFrame [100, 200, 300, 400] [10, 10, 10, 10] 0
      = [90/960, 190/960, 290/960, 390/960]
    ∧ imtotal (darkSubtract [100, 200, 300, 400] [10, 10, 10, 10]) = 960 := by
  constructor
  · norm_num [normalizeFrame, darkSubtract, imtotal, totalinv]
  · norm_num [darkSubtract, imtotal]

/-- C6 counterexample: the two-step modal integrator (`AOcompute`,
line 11237) and the open-loop modal integrator
(`AOloopControl_ComputeOpenLoopModes`, line 12128) consume a NaN measured
coefficient without sanitization: the command becomes NaN instead of the
sanitized-to-zero result, so NaN sanitization does not hold on every
control path that integrates measured coefficients. -/
theorem claim_C6_counterexample :
    twoStepIntegrateMode 1 1 1 1 1 1 (some 0) none = none
    ∧ twoStepIntegrateMode 1 1 1 1 1 1 (some 0) (some 0) = some 0
    ∧ olIntegrateMode 1 1 (some 0) none = none := by
  refine ⟨rfl, ?_, rfl⟩
  norm_num [twoStepIntegrateMode, fsub, fmul, flt, fgt]

/-- C6 (amended): NaN in a measured coefficient is sanitized to zero only on
the direct (1-step) DM-write path of `AOloopControl_run`, where the result
stays non-NaN and the iteration proceeds; on the two-step modal path and in
the open-loop modal integrator no NaN check exists and NaN propagates into
the integrated command. -/
theorem claim_C6_nan_handling (gain mult maxlimit GAINk LIMITk MULTFk c : ℚ) :
    directPathAct gain mult maxlimit (some c) none
      = directPathAct gain mult maxlimit (some c) (some 0)
    ∧ (directPathAct gain mult maxlimit (some c) none).isSome = true
    ∧ twoStepIntegrateMode gain maxlimit mult GAINk LIMITk MULTFk (some c) none = none
    ∧ olIntegrateMode mult gain (some c) none = none := by
  refine ⟨rfl, ?_, rfl, rfl⟩
  simp only [directPathAct, fsub, fmul, fgt, flt]
  split_ifs <;> rfl

/-- C6 witness: the sanitization equation and NaN propagation at concrete
parameter values. -/
theorem claim_C6_witness :
    directPathAct 1 2 3 (some 7) none = directPathAct 1 2 3 (some 7) (some 0)
    ∧ twoStepIntegrateMode 1 3 2 4 5 6 (some 7) none = none :=
  ⟨(claim_C6_nan_handling 1 2 3 4 5 6 7).1,
   (claim_C6_nan_handling 1 2 3 4 5 6 7).2.2.1⟩

/-- C7: with auto-tune-limits enabled and `0 ≤ delta`, each per-mode limit
grows by `(1+delta)` when `|mcoeff * dmNow[m]|` exceeds the iteration-start
limit and shrinks by `(1 - delta*perc/100)` otherwise; the block limit is
re-derived from the block average of the updated per-mode limits through a
multiplicative coefficient clamped to `[1-delta, 1+delta]`. -/
theorem claim_C7_autotune_limits (P : IterParams) (s : OLState) (m b : ℕ)
    (hd : 0 ≤ P.AUTOTUNE_LIMITS_delta) :
    (modelimit P m < |P.AUTOTUNE_LIMITS_mcoeff * dmNowBlend P s m| →
      limitModesNew P s m = P.LIMIT_modes m * (1 + P.AUTOTUNE_LIMITS_delta))
    ∧ (¬ modelimit P m < |P.AUTOTUNE_LIMITS_mcoeff * dmNowBlend P s m| →
      limitModesNew P s m
        = P.LIMIT_modes m * (1 - P.AUTOTUNE_LIMITS_delta * P.AUTOTUNE_LIMITS_perc / 100))
    ∧ limitbNew P s b = P.limitb b * blockLimitCoeff P s b
    ∧ atlimbcoeff P s b = limitblockarray P s b / (P.blockNBmodes b : ℚ)
    ∧ 1 - P.AUTOTUNE_LIMITS_delta ≤ blockLimitCoeff P s b
    ∧ blockLimitCoeff P s b ≤ 1 + P.AUTOTUNE_LIMITS_delta := by
  refine ⟨?_, ?_, rfl, rfl, ?_, ?_⟩
  · intro h
    rw [limitModesNew, if_pos h]
  · intro h
    rw [limitModesNew, if_neg h]
    ring
  · simp only [blockLimitCoeff]
    split_ifs <;> linarith
  · simp only [blockLimitCoeff]
    split_ifs <;> linarith

/-- C7 witness: concrete instance with `delta = 0.1`. -/
theorem claim_C7_witness :
    (0 : ℚ) ≤ Pex.AUTOTUNE_LIMITS_delta
    ∧ 1 - Pex.AUTOTUNE_LIMITS_delta ≤ blockLimitCoeff Pex sEx 0
    ∧ blockLimitCoeff Pex sEx 0 ≤ 1 + Pex.AUTOTUNE_LIMITS_delta :=
  ⟨by norm_num [Pex],
   (claim_C7_autotune_limits Pex sEx 0 0 (by norm_num [Pex])).2.2.2.2.1,
   (claim_C7_autotune_limits Pex sEx 0 0 (by norm_num [Pex])).2.2.2.2.2⟩

/-- C8: the auto-tuner sweeps candidate gains geometrically from
`mingain = 0.01` by factor `1.05` until reaching 1, evaluates the error
functional `sig*g/(1-g) + asq*(lag + 1/g)(lag + 1/(g+g0))` per candidate,
and writes as recommended gain the sweep candidate minimizing it. -/
theorem claim_C8_autotune_gains (asq sig latency gain0 : ℚ) (kk : ℕ)
    (hkk : kk < NBgain) :
    gainval 0 = mingain
    ∧ (∀ j : ℕ, gainval (j + 1) = gainval j * gainfactstep)
    ∧ gainval kk < 1
    ∧ 1 ≤ gainval NBgain
    ∧ (∀ j : ℕ, errval asq sig latency gain0 j
        = sig * (gainval j / (1 - gainval j))
          + asq * ((latency + 1 / gainval j) * (latency + 1 / (gainval j + gain0))))
    ∧ recommendedGain asq sig latency gain0
        = gainval (kkminScan (errval asq sig latency gain0) (NBgain - 1)).2
    ∧ errval asq sig latency gain0
        (kkminScan (errval asq sig latency gain0) (NBgain - 1)).2
        ≤ errval asq sig latency gain0 kk := by
  refine ⟨?_, ?_, gainval_lt_one hkk, one_le_gainval_NBgain, ?_, rfl, ?_⟩
  · simp [gainval]
  · intro j
    simp [gainval, pow_succ, mul_assoc]
  · intro j
    simp only [errval, gainval1, gainval2]
    ring
  · have h1 := kkminScan_eq (errval asq sig latency gain0) (NBgain - 1)
    have h2 := kkminScan_min (errval asq sig latency gain0) (NBgain - 1) kk (by omega)
    rw [h1] at h2
    exact h2

/-- C8 witness: the sweep is nonempty and the recommended gain at concrete
weights is the recorded sweep minimizer. -/
theorem claim_C8_witness :
    0 < NBgain
    ∧ recommendedGain 1 1 2 (1/100)
        = gainval (kkminScan (errval 1 1 2 (1/100)) (NBgain - 1)).2 :=
  ⟨NBgain_pos,
   (claim_C8_autotune_gains 1 1 2 (1/100) 0 NBgain_pos).2.2.2.2.2.1⟩

/-- C9 counterexample: in two-step mode with primary-DM-write disabled,
`set_DM_modes` is never called, so the mode-basis multiply does not occur
(no multiply event, DM stream unchanged), contradicting the claim that only
the hardware push is suppressed. -/
theorem claim_C9_counterexample :
    (twoStepActuation false 1 3 cmdEx DMmodesEx dmCEx).2 = []
    ∧ ActuationEvent.modeMultiply ∉ (twoStepActuation false 1 3 cmdEx DMmodesEx dmCEx).2
    ∧ (twoStepActuation false 1 3 cmdEx DMmodesEx dmCEx).1 0 = dmCEx 0 := by
  refine ⟨?_, ?_, ?_⟩ <;> simp [twoStepActuation]

/-- C9 (amended): in two-step mode, when primary-DM-write is disabled (or
the global gain is at most `1e-6` in magnitude), `set_DM_modes` is skipped
entirely: neither the mode-basis multiply nor the push to the DM stream
occurs and the stream is unchanged; when enabled with a non-negligible
gain, the multiply and the push both occur in the same call. -/
theorem claim_C9_actuation_dispatch (primaryWriteOn : Bool) (gain : ℚ)
    (NBDMmodes : ℕ) (cmd : ℕ → ℚ) (DMmodes : ℕ → ℕ → ℚ) (dmCold : ℕ → ℚ) :
    (¬ (primaryWriteOn = true ∧ 1/1000000 < |gain|) →
      (twoStepActuation primaryWriteOn gain NBDMmodes cmd DMmodes dmCold).2 = []
      ∧ (twoStepActuation primaryWriteOn gain NBDMmodes cmd DMmodes dmCold).1 = dmCold)
    ∧ ((primaryWriteOn = true ∧ 1/1000000 < |gain|) →
      (twoStepActuation primaryWriteOn gain NBDMmodes cmd DMmodes dmCold).2
        = [ActuationEvent.modeMultiply, ActuationEvent.dmPush]
      ∧ ∀ i, (twoStepActuation primaryWriteOn gain NBDMmodes cmd DMmodes dmCold).1 i
          = ∑ k ∈ Finset.range NBDMmodes, cmd k * DMmodes k i) := by
  constructor
  · intro h
    rw [twoStepActuation, if_neg h]
    exact ⟨rfl, rfl⟩
  · intro h
    rw [twoStepActuation, if_pos h]
    exact ⟨rfl, fun i => rfl⟩

/-- C9 witness: with primary-DM-write enabled and gain 1, both effects
occur. -/
theorem claim_C9_witness :
    (true = true ∧ (1/1000000 : ℚ) < |(1 : ℚ)|)
    ∧ (twoStepActuation true 1 3 cmdEx DMmodesEx dmCEx).2
        = [ActuationEvent.modeMultiply, ActuationEvent.dmPush] :=
  ⟨⟨rfl, by norm_num⟩,
   ((claim_C9_actuation_dispatch true 1 3 cmdEx DMmodesEx dmCEx).2
      ⟨rfl, by norm_num⟩).1⟩

/-- C10: the DM-history ring has exactly 20 slots; whenever the integer
latency `L0` is at most 19 and the cursor is in range, the two wrap-corrected
read indices `cursor - L0` and `cursor - L0 - 1` lie in `[0, 20)`; with
`L0 > 19` the single wrap correction can leave an index out of range. -/
theorem claim_C10_ring_bounds :
    modevalDM_bsize = 20
    ∧ (∀ cursor L0 : ℕ, cursor < modevalDM_bsize → L0 ≤ modevalDM_bsize - 1 →
        0 ≤ ringIndex cursor L0 ∧ ringIndex cursor L0 < (modevalDM_bsize : ℤ)
        ∧ 0 ≤ ringIndex cursor (L0 + 1)
        ∧ ringIndex cursor (L0 + 1) < (modevalDM_bsize : ℤ))
    ∧ (∃ cursor L0 : ℕ, cursor < modevalDM_bsize ∧ modevalDM_bsize - 1 < L0
        ∧ ringIndex cursor (L0 + 1) < 0) := by
  refine ⟨rfl, ?_, ⟨0, 20, by decide, by decide, by decide⟩⟩
  intro cursor L0 h1 h2
  simp only [ringIndex, modevalDM_bsize] at *
  split_ifs <;> refine ⟨by omega, by omega, by omega, by omega⟩

/-- C10 witness: concrete in-range instance (cursor 3, integer latency 2). -/
theorem claim_C10_witness :
    0 ≤ ringIndex 3 2 ∧ ringIndex 3 2 < (modevalDM_bsize : ℤ)
    ∧ 0 ≤ ringIndex 3 (2 + 1) ∧ ringIndex 3 (2 + 1) < (modevalDM_bsize : ℤ) :=
  claim_C10_ring_bounds.2.1 3 2 (by decide) (by decide)

end AOloopControl
